import Mathlib

/-!
Verification development for the vial_scan extraction pipeline
(src/extract.py, src/parse_fields.py, src/spreadsheet.py, src/preprocess.py).

The Python code is shallowly embedded: pure helpers become Lean functions on
`List Char` / `String`, the two network-backed inference stages become oracle
parameters returning `Except String _` (an `Except.error` models a raised
exception inside the corresponding `try` block), and the per-item pipeline
`process_one` / scheduler `process_all` become total Lean functions over those
oracles.  The asyncio semaphore discipline of `process_all` is modelled as a
small-step transition system.

Python strings are modelled as `List Char` (wrapped in `String` at the API
boundary); the regex character class \d is modelled as ASCII `Char.isDigit`,
and `str.strip()` as removal of leading/trailing ASCII whitespace.
-/

namespace VialScan

/-! ### Python string helpers -/

/-- Whitespace as stripped by Python `str.strip()` (ASCII model). -/
def isWS (c : Char) : Bool :=
  c = ' ' || c = '\t' || c = '\n' || c = '\r'

/-- Python `str.strip()`: drop leading and trailing whitespace. -/
def pyStrip (l : List Char) : List Char :=
  ((l.dropWhile isWS).reverse.dropWhile isWS).reverse

/-- Drop an exact literal from the front of a list: `some rest` when `pre` is a
prefix, `none` otherwise.  Models anchored literal matching inside the regexes
of `extract.py` / `parse_fields.py`. -/
def dropPre : List Char → List Char → Option (List Char)
  | [], l => some l
  | _ :: _, [] => none
  | p :: ps, c :: cs => if p = c then dropPre ps cs else none

/-! ### Filename Correlator — `extract_integer_from_filename` (extract.py lines 63-73) -/

/-- The basename of a path: everything after the last path separator.
Models `pathlib.PurePath.name`. -/
def pyName (l : List Char) : List Char :=
  (l.reverse.takeWhile (fun c => c ≠ '/')).reverse

/-- Index of the last dot in a name, if any (via `str.rfind`). -/
def lastDotIdx (l : List Char) : Option Nat :=
  ((List.range l.length).filter (fun i => l[i]? = some '.')).getLast?

/-- `pathlib.PurePath.stem` on a basename: the name with its final suffix
removed; the dot must be interior (`0 < i < len - 1`) for a suffix to exist. -/
def pyStem (name : List Char) : List Char :=
  match lastDotIdx name with
  | some i => if 0 < i ∧ i < name.length - 1 then name.take i else name
  | none => name

/-- The final suffix removed by `pyStem` (empty when no suffix exists), so that
`pyStem name ++ pySuffix name = name`. -/
def pySuffix (name : List Char) : List Char :=
  match lastDotIdx name with
  | some i => if 0 < i ∧ i < name.length - 1 then name.drop i else []
  | none => []

/-- Leading zeros of a digit run as captured by the regex `0*(\d+)`: greedy
`0*` leaves at least one digit for `\d+`, so an all-zero run captures "0". -/
def stripZeros (run : List Char) : List Char :=
  match run.dropWhile (fun c => c = '0') with
  | [] => ['0']
  | r => r

/-- The token of the vendor pattern, lowercased. -/
def dlTok : List Char := "dunnlab".data

/-- Leftmost search for the regex `DunnLab0*(\d+)` with `re.IGNORECASE`
(extract.py line 66): at each position, the literal token must be followed by
at least one digit; the capture is the digit run with leading zeros absorbed
by `0*`. -/
def dunnlabScan : List Char → Option (List Char)
  | [] => none
  | c :: rest =>
    if ((c :: rest).take 7).map Char.toLower = dlTok
        ∧ ((c :: rest).drop 7).takeWhile Char.isDigit ≠ [] then
      some (stripZeros (((c :: rest).drop 7).takeWhile Char.isDigit))
    else dunnlabScan rest

/-- Leftmost search for the regex `(\d+)` (extract.py line 70): the maximal
digit run starting at the first digit. -/
def firstDigitRun : List Char → Option (List Char)
  | [] => none
  | c :: rest =>
    if c.isDigit then some (c :: rest.takeWhile Char.isDigit)
    else firstDigitRun rest

/-- extract.py lines 63-73: two-tier integer extraction from a filename. -/
def extract_integer_from_filename (filename : String) : Option String :=
  match dunnlabScan (pyStem (pyName filename.data)) with
  | some ds => some (String.mk ds)
  | none => (firstDigitRun (pyStem (pyName filename.data))).map String.mk

/-! ### Response Decoder — fence stripping (extract.py lines 104-108,
parse_fields.py lines 80-83; both sites are textually identical) -/

/-- The fence marker. -/
def fence3 : List Char := "```".data

/-- Leading-fence removal: the substitution with pattern fence3 followed by
`(?:json)?` and `\n?`, anchored at the start (one leading fence, an optional
literal `json` tag, an optional newline). -/
def stripLeadFence (l : List Char) : List Char :=
  match dropPre fence3 l with
  | none => l
  | some r =>
    let r2 := match dropPre "json".data r with
      | some rj => rj
      | none => r
    match r2 with
    | c :: t => if c = '\n' then t else r2
    | [] => []

/-- Trailing-fence removal: the substitution with pattern `\n?` followed by
fence3 anchored at `$` — a trailing fence with an optional preceding newline
absorbed greedily, where `$` matches at the end of the string or just before a
final newline. -/
def stripTrailFence (l : List Char) : List Char :=
  match dropPre fence3 l.reverse with
  | some r1 =>
    match r1 with
    | c :: t => if c = '\n' then t.reverse else r1.reverse
    | [] => []
  | none =>
    match l.reverse with
    | c :: rest =>
      if c = '\n' then
        match dropPre fence3 rest with
        | some r1 =>
          match r1 with
          | c2 :: t => if c2 = '\n' then t.reverse ++ ['\n'] else r1.reverse ++ ['\n']
          | [] => ['\n']
        | none => l
      else l
    | [] => l

/-- The text handed to `json.loads`: `content.strip()` followed by the two
fence-stripping substitutions. -/
def decodeText (raw : List Char) : List Char :=
  stripTrailFence (stripLeadFence (pyStrip raw))

/-- The Response Decoder with the structured parse (`json.loads`, an external
library call) abstracted as a parameter applied to the normalized text. -/
def decodeReply {α : Type} (parse : List Char → Except String α)
    (raw : List Char) : Except String α :=
  parse (decodeText raw)

/-! ### Data model (spec section 3, shapes of the dicts built in extract.py) -/

/-- The decoded vision reply when it is a JSON object with the fields requested
by the extraction instruction (extract.py lines 39-45). -/
structure ExtractionResult where
  datamatrix_integer : Option String
  transcribed_text : Option String
  transcription_confidence : Int
  transcription_comments : String
deriving DecidableEq, Repr

/-- The decoded parse reply (parse_fields.py lines 20-29). -/
structure ParseResult where
  sample_number : Option String
  date : Option String
  sampling_event : Option String
  species : Option String
  tissue : Option String
  notes : String
  parse_confidence : Int
  parse_comments : String
deriving DecidableEq, Repr

/-- A successfully decoded vision reply: `json.loads` may return a dict with
the expected fields (`obj`) or any other JSON value (`nonObj`) — a list,
string, or number also decodes without an exception. -/
inductive VisionReply where
  | obj (r : ExtractionResult)
  | nonObj (desc : String)
deriving DecidableEq, Repr

/-- The per-item result row assembled at extract.py lines 172-178
(dict keys in spreadsheet column order). -/
structure Row where
  image_file : String
  filename_integer : Option String
  datamatrix_match : Option Bool
  datamatrix_integer : Option String
  transcribed_text : Option String
  transcription_confidence : Int
  transcription_comments : String
  sample_number : Option String
  date : Option String
  sampling_event : Option String
  species : Option String
  tissue : Option String
  notes : String
  parse_confidence : Int
  parse_comments : String
deriving DecidableEq, Repr

/-- An exception that escapes `process_one` (no enclosing handler). -/
inductive PipeError where
  | attributeError (desc : String)
deriving DecidableEq, Repr

/-! ### Item Pipeline — `process_one` (extract.py lines 120-178) -/

/-- The sentinel substituted when `extract_from_image` raises
(extract.py lines 127-134). -/
def sentinelExtraction (e : String) : ExtractionResult :=
  ⟨none, none, 0, "Extraction failed: " ++ e⟩

/-- The sentinel substituted when `parse_transcription` raises
(extract.py lines 141-152). -/
def sentinelParse (e : String) : ParseResult :=
  ⟨none, none, none, none, none, "", 0, "Parsing failed: " ++ e⟩

/-- The sentinel substituted when there is no transcribed text
(extract.py lines 153-163). -/
def noTextSentinel : ParseResult :=
  ⟨none, none, none, none, none, "", 0, "No transcribed text to parse."⟩

/-- extract.py lines 165-170: tri-state comparison of the model-derived and
filename-derived identifiers. -/
def datamatrixMatchOf (dm_from_image filename_integer : Option String) :
    Option Bool :=
  match dm_from_image, filename_integer with
  | some a, some b => some (a == b)
  | _, _ => none

/-- extract.py lines 136-163: the conditional second stage.  `if transcribed:`
is false for a missing key (`none`) and for the empty string; otherwise
`parse_transcription` is awaited inside a `try` whose handler substitutes the
parse sentinel. -/
def parseStage (parOutcome : String → Except String ParseResult)
    (extracted : ExtractionResult) : ParseResult :=
  match extracted.transcribed_text with
  | none => noTextSentinel
  | some t =>
    if t = "" then noTextSentinel
    else
      match parOutcome t with
      | Except.ok p => p
      | Except.error e => sentinelParse e

/-- extract.py lines 172-178: assemble the result dict. -/
def mkRow (path : String) (filename_integer : Option String)
    (extracted : ExtractionResult) (parsed : ParseResult) : Row :=
  ⟨path, filename_integer,
   datamatrixMatchOf extracted.datamatrix_integer filename_integer,
   extracted.datamatrix_integer, extracted.transcribed_text,
   extracted.transcription_confidence, extracted.transcription_comments,
   parsed.sample_number, parsed.date, parsed.sampling_event, parsed.species,
   parsed.tissue, parsed.notes, parsed.parse_confidence, parsed.parse_comments⟩

/-- extract.py lines 120-178.  `visOutcome` is the outcome of
`await extract_from_image(...)`: `Except.error e` when it raises (caught at
lines 127-134), `Except.ok v` when it returns the decoded JSON value `v`.
When `v` is not a dict, the attribute access `extracted.get(...)` at line 137
— outside the `try` — raises, and nothing in `process_one` catches it. -/
def process_one (visOutcome : Except String VisionReply)
    (parOutcome : String → Except String ParseResult)
    (path : String) : Except PipeError Row :=
  let filename_integer := extract_integer_from_filename path
  match visOutcome with
  | Except.error e =>
    let extracted := sentinelExtraction e
    Except.ok (mkRow path filename_integer extracted
      (parseStage parOutcome extracted))
  | Except.ok (VisionReply.nonObj d) =>
    Except.error (PipeError.attributeError d)
  | Except.ok (VisionReply.obj extracted) =>
    Except.ok (mkRow path filename_integer extracted
      (parseStage parOutcome extracted))

/-! ### Scheduler — `process_all` (extract.py lines 111-187)

`asyncio.as_completed` appends rows in completion order, a permutation of the
submission order; the pure skeleton below collects in submission order, which
is immaterial to the cardinality and isolation properties proved here.  An
exception escaping any `process_one` propagates out of the awaiting loop and
aborts the collection, modelled by the `Except` short-circuit. -/

def process_all (vis : String → Except String VisionReply)
    (par : String → String → Except String ParseResult) :
    List String → Except PipeError (List Row)
  | [] => Except.ok []
  | p :: rest =>
    match process_one (vis p) (par p) p with
    | Except.error e => Except.error e
    | Except.ok row =>
      match process_all vis par rest with
      | Except.error e => Except.error e
      | Except.ok rows => Except.ok (row :: rows)

/-! ### Report sink policy — `write_spreadsheet` (spreadsheet.py lines 47-64) -/

/-- Row fill colours used by the sink. -/
inductive Fill where
  | red
  | yellow
deriving DecidableEq, Repr

/-- Python `row.get(name) or 10` (spreadsheet.py lines 48-49): a missing value
(`None`) — and, because `or` tests truthiness, also the integer 0 — becomes
10. -/
def pyOrTen (v : Option Int) : Int :=
  match v with
  | none => 10
  | some n => if n = 0 then 10 else n

/-- spreadsheet.py lines 48-56: the whole-row fill chosen from the minimum of
the two effective confidence values. -/
def rowFillColor (t_conf p_conf : Option Int) : Option Fill :=
  let tc := pyOrTen t_conf
  let pc := pyOrTen p_conf
  let min_conf := min tc pc
  if min_conf ≤ 3 then some Fill.red
  else if min_conf ≤ 6 then some Fill.yellow
  else none

/-- spreadsheet.py lines 62-64: the datamatrix_match cell is filled red exactly
when the value is `False`. -/
def dmCellFlag (dm : Option Bool) : Bool :=
  dm = some false

/-! ### Concurrency model of the Scheduler (extract.py lines 116-121, spec
section 5)

The asyncio event loop interleaves the `process_one` coroutines; each task
acquires the semaphore (`async with sem`, initial count `batch_size`), then
awaits the vision round-trip, then either awaits the parse round-trip or skips
it, and releases the semaphore when the `async with` block exits.  The
interleaving is modelled as a small-step transition relation on a state
carrying the semaphore count and each task's phase. -/

/-- Phase of one `process_one` task: `waiting` before the semaphore is
acquired, `inCall1` while the vision inference call is awaited, `inCall2`
while the parse inference call is awaited, `done` after release. -/
inductive Phase where
  | waiting
  | inCall1
  | inCall2
  | done
deriving DecidableEq, Repr

/-- A task holds an in-flight inference call in phases `inCall1`/`inCall2`. -/
def isInFlight : Phase → Bool
  | Phase.inCall1 => true
  | Phase.inCall2 => true
  | _ => false

/-- Scheduler state: available semaphore permits and all task phases. -/
structure SchedState where
  avail : Nat
  tasks : List Phase
deriving DecidableEq, Repr

/-- Number of tasks holding an in-flight inference call. -/
def inFlightCount (s : SchedState) : Nat := s.tasks.countP isInFlight

/-- Initial state for `process_all` with `batch_size = k` and `n` items. -/
def initState (k n : Nat) : SchedState := ⟨k, List.replicate n Phase.waiting⟩

/-- One scheduler step: a task acquires the semaphore and issues its first
call, finishes the first call and issues the second, or finishes its last call
and releases the semaphore (a task whose transcribed text is empty issues no
second call). -/
inductive SchedStep : SchedState → SchedState → Prop where
  | acquire (a : Nat) (ts : List Phase) (i : Nat)
      (hi : ts[i]? = some Phase.waiting) :
      SchedStep ⟨a + 1, ts⟩ ⟨a, ts.set i Phase.inCall1⟩
  | advance (a : Nat) (ts : List Phase) (i : Nat)
      (hi : ts[i]? = some Phase.inCall1) :
      SchedStep ⟨a, ts⟩ ⟨a, ts.set i Phase.inCall2⟩
  | skipSecond (a : Nat) (ts : List Phase) (i : Nat)
      (hi : ts[i]? = some Phase.inCall1) :
      SchedStep ⟨a, ts⟩ ⟨a + 1, ts.set i Phase.done⟩
  | finish (a : Nat) (ts : List Phase) (i : Nat)
      (hi : ts[i]? = some Phase.inCall2) :
      SchedStep ⟨a, ts⟩ ⟨a + 1, ts.set i Phase.done⟩

/-- States reachable from the initial state of a run. -/
def Reachable (k n : Nat) (s : SchedState) : Prop :=
  Relation.ReflTransGen SchedStep (initState k n) s

/-! ### Lemmas and claim theorems -/


lemma process_all_length (vis : String → Except String VisionReply)
    (par : String → String → Except String ParseResult) :
    ∀ paths : List String,
      (∀ p ∈ paths, ∀ d, vis p ≠ Except.ok (VisionReply.nonObj d)) →
      ∃ rows, process_all vis par paths = Except.ok rows ∧
        rows.length = paths.length
  | [], _ => ⟨[], rfl, rfl⟩
  | p :: rest, h => by
    obtain ⟨rows, hr, hl⟩ := process_all_length vis par rest
      (fun q hq => h q (List.mem_cons_of_mem _ hq))
    have hp := h p (List.mem_cons_self _ _)
    obtain ⟨row, hrow⟩ : ∃ row,
        process_one (vis p) (par p) p = Except.ok row := by
      cases hv : vis p with
      | error e => exact ⟨_, rfl⟩
      | ok v =>
        cases v with
        | obj r => exact ⟨_, rfl⟩
        | nonObj d => exact absurd hv (hp d)
    refine ⟨row :: rows, ?_, by simp [hl]⟩
    simp only [process_all]
    rw [hrow, hr]

/-- C1: for every non-empty list of discovered items whose decoded vision
replies are JSON objects or stage exceptions, `process_all` returns exactly
one row per input item, regardless of how many per-stage failures (vision
extraction or field parsing) occurred for any item. -/
theorem c1_one_row_per_item (vis : String → Except String VisionReply)
    (par : String → String → Except String ParseResult)
    (paths : List String) (_hne : paths ≠ [])
    (hshape : ∀ p ∈ paths, ∀ d, vis p ≠ Except.ok (VisionReply.nonObj d)) :
    ∃ rows, process_all vis par paths = Except.ok rows ∧
      rows.length = paths.length :=
  process_all_length vis par paths hshape

/-- Concrete two-item run exercising c1_one_row_per_item. -/
theorem c1_witness :
    ∃ rows, process_all
      (fun _ => Except.ok (VisionReply.obj ⟨some "187", some "x", 9, ""⟩))
      (fun _ _ => Except.ok ⟨some "1", none, none, none, none, "", 8, ""⟩)
      ["a.png", "b.png"] = Except.ok rows ∧ rows.length = 2 := by
  simpa using c1_one_row_per_item
    (fun _ => Except.ok (VisionReply.obj ⟨some "187", some "x", 9, ""⟩))
    (fun _ _ => Except.ok ⟨some "1", none, none, none, none, "", 8, ""⟩)
    ["a.png", "b.png"] (by simp) (by intro p hp d; simp)

/-- C3: a row's datamatrix_match is true iff both the model-derived and the
filename-derived identifiers are present and equal, false iff both are
present and unequal, and none (unknown) iff either side is absent — never
false when a side is missing; `process_one` computes the field by exactly
this tri-state comparison. -/
theorem c3_datamatrix_tristate :
    (∀ dm fn : Option String,
      (datamatrixMatchOf dm fn = some true ↔ ∃ s, dm = some s ∧ fn = some s) ∧
      (datamatrixMatchOf dm fn = some false ↔
        ∃ s t, dm = some s ∧ fn = some t ∧ s ≠ t) ∧
      (datamatrixMatchOf dm fn = none ↔ (dm = none ∨ fn = none))) ∧
    ∀ (r : ExtractionResult) (par : String → Except String ParseResult)
      (p : String), ∃ row,
        process_one (Except.ok (VisionReply.obj r)) par p = Except.ok row ∧
        row.datamatrix_match =
          datamatrixMatchOf r.datamatrix_integer
            (extract_integer_from_filename p) := by
  constructor
  · intro dm fn
    cases dm with
    | none => simp [datamatrixMatchOf]
    | some a =>
      cases fn with
      | none => simp [datamatrixMatchOf]
      | some b =>
        have hred : datamatrixMatchOf (some a) (some b) = some (a == b) := rfl
        refine ⟨?_, ?_, ?_⟩
        · rw [hred]
          constructor
          · intro h
            have hab : a = b := eq_of_beq (Option.some.inj h)
            exact ⟨b, by rw [hab], rfl⟩
          · rintro ⟨s, hs1, hs2⟩
            have hab : a = b := by
              rw [Option.some.inj hs1, Option.some.inj hs2]
            rw [hab]
            simp
        · rw [hred]
          constructor
          · intro h
            have hab : (a == b) = false := Option.some.inj h
            refine ⟨a, b, rfl, rfl, ?_⟩
            intro hh
            rw [hh] at hab
            simp at hab
          · rintro ⟨s, t, hs1, hs2, hst⟩
            have h1 := Option.some.inj hs1
            have h2 := Option.some.inj hs2
            subst h1
            subst h2
            simp only [Option.some.injEq]
            exact beq_false_of_ne hst
        · rw [hred]
          simp
  · intro r par p
    exact ⟨_, rfl, rfl⟩

/-- C4 (code bug): evaluation of write_spreadsheet's flagging policy at the
failing input.  A row with transcription_confidence 0 and parse_confidence 8
must be flagged red by the claim (min 0 8 is at most 3), but the code's
`row.get(...) or 10` treats the falsy confidence 0 as absent and maps it
to 10, leaving the row unflagged; for confidences 1-10 the claimed
thresholds hold, and a false datamatrix_match flags that cell. -/
theorem c4_confidence_flag_bug :
    rowFillColor (some 0) (some 8) = none ∧
    min (0 : Int) 8 ≤ 3 ∧
    rowFillColor (some 1) (some 8) = some Fill.red ∧
    rowFillColor (some 5) (some 8) = some Fill.yellow ∧
    rowFillColor (some 7) (some 8) = none ∧
    dmCellFlag (some false) = true ∧ dmCellFlag (some true) = false ∧
    dmCellFlag none = false := by decide



/-- C2: an exception raised in the vision-extraction stage is caught at that
stage's boundary and replaced by a sentinel whose transcription_confidence
is 0 and whose transcription_comments embeds the error description; the
pipeline still returns a row (nothing propagates to the Scheduler), and every
other item's row is unchanged under oracles that agree away from the failing
item. -/
theorem c2_vision_failure_isolation
    (vis vis2 : String → Except String VisionReply)
    (par par2 : String → String → Except String ParseResult)
    (p : String) (e : String) (hvp : vis p = Except.error e)
    (hagree : ∀ q, q ≠ p → vis q = vis2 q ∧ par q = par2 q) :
    (∃ row, process_one (vis p) (par p) p = Except.ok row ∧
      row.transcription_confidence = 0 ∧
      row.transcription_comments = "Extraction failed: " ++ e ∧
      row.transcription_comments ≠ "") ∧
    (∀ q, q ≠ p →
      process_one (vis q) (par q) q = process_one (vis2 q) (par2 q) q) := by
  constructor
  · rw [hvp]
    refine ⟨_, rfl, rfl, rfl, ?_⟩
    intro hcontra
    have hc2 : ("Extraction failed: " ++ e : String) = "" := hcontra
    have hlen := congrArg String.length hc2
    rw [String.length_append] at hlen
    have h19 : ("Extraction failed: " : String).length = 19 := rfl
    rw [h19] at hlen
    simp at hlen
  · intro q hq
    obtain ⟨h1, h2⟩ := hagree q hq
    rw [h1, h2]

/-- Concrete failing-item run exercising c2_vision_failure_isolation. -/
theorem c2_witness :
    (∃ row, process_one
        ((fun q => if q = "a.png" then Except.error "boom"
          else Except.ok (VisionReply.obj ⟨some "1", some "t", 9, ""⟩)) "a.png")
        ((fun _ _ => Except.ok
          (⟨some "1", none, none, none, none, "", 8, ""⟩ : ParseResult)) "a.png")
        "a.png" = Except.ok row ∧
      row.transcription_confidence = 0 ∧
      row.transcription_comments = "Extraction failed: " ++ "boom" ∧
      row.transcription_comments ≠ "") ∧
    (∀ q, q ≠ "a.png" →
      process_one
        ((fun q => if q = "a.png" then Except.error "boom"
          else Except.ok (VisionReply.obj ⟨some "1", some "t", 9, ""⟩)) q)
        ((fun _ _ => Except.ok
          (⟨some "1", none, none, none, none, "", 8, ""⟩ : ParseResult)) q) q =
      process_one
        ((fun _ => Except.ok (VisionReply.obj ⟨some "1", some "t", 9, ""⟩)) q)
        ((fun _ _ => Except.ok
          (⟨some "1", none, none, none, none, "", 8, ""⟩ : ParseResult)) q) q) :=
  c2_vision_failure_isolation
    (fun q => if q = "a.png" then Except.error "boom"
      else Except.ok (VisionReply.obj ⟨some "1", some "t", 9, ""⟩))
    (fun _ => Except.ok (VisionReply.obj ⟨some "1", some "t", 9, ""⟩))
    (fun _ _ => Except.ok ⟨some "1", none, none, none, none, "", 8, ""⟩)
    (fun _ _ => Except.ok ⟨some "1", none, none, none, none, "", 8, ""⟩)
    "a.png" "boom" (by simp)
    (by intro q hq; exact ⟨by simp [hq], rfl⟩)

/-- C6: when the extraction stage yields no transcribed text (field absent or
empty string), the Field Parser is never invoked — the row does not depend on
the parse oracle — and the row carries the sentinel ParseResult with
parse_confidence 0 and parse_comments "No transcribed text to parse.". -/
theorem c6_no_text_skips_field_parse (r : ExtractionResult)
    (par par2 : String → Except String ParseResult) (p : String)
    (h : r.transcribed_text = none ∨ r.transcribed_text = some "") :
    (∃ row, process_one (Except.ok (VisionReply.obj r)) par p = Except.ok row ∧
      row.parse_confidence = 0 ∧
      row.parse_comments = "No transcribed text to parse.") ∧
    process_one (Except.ok (VisionReply.obj r)) par p =
      process_one (Except.ok (VisionReply.obj r)) par2 p := by
  have hps : ∀ par3 : String → Except String ParseResult,
      parseStage par3 r = noTextSentinel := by
    intro par3
    rcases h with h | h <;> simp [parseStage, h]
  constructor
  · refine ⟨_, rfl, ?_, ?_⟩
    · show (parseStage par r).parse_confidence = 0
      rw [hps]
      rfl
    · show (parseStage par r).parse_comments = "No transcribed text to parse."
      rw [hps]
      rfl
  · show Except.ok (mkRow p _ r (parseStage par r)) =
      Except.ok (mkRow p _ r (parseStage par2 r))
    rw [hps, hps]

/-- Concrete no-text extraction exercising c6_no_text_skips_field_parse. -/
theorem c6_witness :
    (∃ row, process_one
        (Except.ok (VisionReply.obj ⟨some "1", none, 9, ""⟩))
        (fun _ => Except.error "never called") "a.png" = Except.ok row ∧
      row.parse_confidence = 0 ∧
      row.parse_comments = "No transcribed text to parse.") ∧
    process_one (Except.ok (VisionReply.obj ⟨some "1", none, 9, ""⟩))
      (fun _ => Except.error "never called") "a.png" =
    process_one (Except.ok (VisionReply.obj ⟨some "1", none, 9, ""⟩))
      (fun _ => Except.ok ⟨none, none, none, none, none, "", 5, ""⟩) "a.png" :=
  c6_no_text_skips_field_parse ⟨some "1", none, 9, ""⟩
    (fun _ => Except.error "never called")
    (fun _ => Except.ok ⟨none, none, none, none, none, "", 5, ""⟩)
    "a.png" (Or.inl rfl)

/-- C9: a vision reply that decodes to a non-object JSON value makes
`process_one` fail with an uncaught error raised after the extraction
try-block (the attribute access on the decoded value), not with a sentinel
row; when every decoded reply is a JSON object or the stage raised, this
error branch is unreachable and a row is always produced. -/
theorem c9_nonobject_reply_uncaught (d : String)
    (par : String → Except String ParseResult) (p : String) :
    process_one (Except.ok (VisionReply.nonObj d)) par p =
      Except.error (PipeError.attributeError d) ∧
    (∀ v : Except String VisionReply,
      (∀ d2, v ≠ Except.ok (VisionReply.nonObj d2)) →
      ∃ row, process_one v par p = Except.ok row) := by
  refine ⟨rfl, ?_⟩
  intro v hv
  cases v with
  | error e => exact ⟨_, rfl⟩
  | ok w =>
    cases w with
    | obj r => exact ⟨_, rfl⟩
    | nonObj d2 => exact absurd rfl (hv d2)

/-- Concrete non-object reply exercising c9_nonobject_reply_uncaught. -/
theorem c9_witness :
    process_one (Except.ok (VisionReply.nonObj "a JSON array"))
      (fun _ => Except.error "x") "a.png" =
      Except.error (PipeError.attributeError "a JSON array") ∧
    (∃ row, process_one (Except.error "transport down")
      (fun _ => Except.error "x") "a.png" = Except.ok row) :=
  ⟨(c9_nonobject_reply_uncaught "a JSON array" (fun _ => Except.error "x")
      "a.png").1,
   (c9_nonobject_reply_uncaught "a JSON array" (fun _ => Except.error "x")
      "a.png").2 (Except.error "transport down") (by intro d2; simp)⟩



lemma takeWhile_all (p : Char → Bool) (l : List Char)
    (h : ∀ c ∈ l, p c = true) : l.takeWhile p = l := by
  induction l with
  | nil => rfl
  | cons c rest ih =>
    simp [List.takeWhile_cons, h c (List.mem_cons_self _ _),
      ih (fun x hx => h x (List.mem_cons_of_mem _ hx))]

lemma pyName_eq_self (l : List Char) (h : '/' ∉ l) : pyName l = l := by
  unfold pyName
  rw [takeWhile_all _ _ ?_, List.reverse_reverse]
  intro c hc
  have hc2 : c ∈ l := List.mem_reverse.1 hc
  have : c ≠ '/' := fun he => h (he ▸ hc2)
  simp [this]

lemma stem_suffix_append (n : List Char) : pyStem n ++ pySuffix n = n := by
  unfold pyStem pySuffix
  cases lastDotIdx n with
  | none => simp
  | some i =>
    by_cases h : 0 < i ∧ i < n.length - 1
    · simp [h, List.take_append_drop]
    · simp [h]

lemma pyStem_subset (n : List Char) : pyStem n ⊆ n := by
  unfold pyStem
  cases lastDotIdx n with
  | none => exact fun x hx => hx
  | some i =>
    by_cases h : 0 < i ∧ i < n.length - 1
    · simp only [h, if_true]
      exact List.take_subset _ _
    · simp only [h, if_false]
      exact fun x hx => hx

lemma firstDigitRun_eq_none_iff (l : List Char) :
    firstDigitRun l = none ↔ ∀ c ∈ l, c.isDigit = false := by
  induction l with
  | nil => simp [firstDigitRun]
  | cons c rest ih =>
    by_cases h : c.isDigit
    · simp [firstDigitRun, h]
    · have hf : c.isDigit = false := by simp [h]
      simp [firstDigitRun, hf, ih]

lemma dunnlabScan_eq_none (l : List Char)
    (h : ∀ c ∈ l, c.isDigit = false) : dunnlabScan l = none := by
  induction l with
  | nil => rfl
  | cons c rest ih =>
    have hrest : ∀ x ∈ rest, x.isDigit = false :=
      fun x hx => h x (List.mem_cons_of_mem _ hx)
    have hrun : ((c :: rest).drop 7).takeWhile Char.isDigit = [] := by
      cases hd : (c :: rest).drop 7 with
      | nil => rfl
      | cons a t =>
        have ha : a ∈ c :: rest := by
          have hmem : a ∈ (c :: rest).drop 7 := by
            rw [hd]
            exact List.mem_cons_self _ _
          exact List.mem_of_mem_drop hmem
        simp [List.takeWhile_cons, h a ha]
    simp only [dunnlabScan]
    rw [if_neg]
    · exact ih hrest
    · rintro ⟨ht, hr⟩
      exact hr hrun

/-- C5: the Filename Correlator first searches for the vendor token followed
by zero-padded digits and returns those digits with leading zeros stripped;
if the pattern is absent it returns the first digit run of the stem; the
spec's three examples map as stated; and for any name without a path
separator whose final extension holds no digit (true of every discovered
image item), it returns none iff no digits occur anywhere in the name.  As a
Lean function it is total and pure. -/
theorem c5_filename_two_tier :
    extract_integer_from_filename "DunnLab000187.jpg" = some "187" ∧
    extract_integer_from_filename "vial_42_after.png" = some "42" ∧
    extract_integer_from_filename "nocode.png" = none ∧
    ∀ s : String, '/' ∉ s.data →
      (∀ c ∈ pySuffix s.data, c.isDigit = false) →
      (extract_integer_from_filename s = none ↔
        ∀ c ∈ s.data, c.isDigit = false) := by
  refine ⟨by decide, by decide, by decide, ?_⟩
  intro s hs hsuf
  have hname : pyName s.data = s.data := pyName_eq_self _ hs
  constructor
  · intro h c hc
    unfold extract_integer_from_filename at h
    rw [hname] at h
    cases hdl : dunnlabScan (pyStem s.data) with
    | some ds => rw [hdl] at h; simp at h
    | none =>
      rw [hdl] at h
      cases hfd : firstDigitRun (pyStem s.data) with
      | some r => rw [hfd] at h; simp at h
      | none =>
        have hstem : ∀ x ∈ pyStem s.data, x.isDigit = false :=
          (firstDigitRun_eq_none_iff _).1 hfd
        rw [← stem_suffix_append s.data] at hc
        rcases List.mem_append.1 hc with h1 | h2
        · exact hstem c h1
        · exact hsuf c h2
  · intro h
    have hstem : ∀ x ∈ pyStem s.data, x.isDigit = false :=
      fun x hx => h x (pyStem_subset _ hx)
    unfold extract_integer_from_filename
    rw [hname, dunnlabScan_eq_none _ hstem,
      (firstDigitRun_eq_none_iff _).2 hstem]
    rfl

/-- Concrete name exercising the conditional part of c5_filename_two_tier. -/
theorem c5_witness :
    '/' ∉ "nocode.png".data ∧
    (∀ c ∈ pySuffix "nocode.png".data, c.isDigit = false) ∧
    (extract_integer_from_filename "nocode.png" = none ↔
      ∀ c ∈ "nocode.png".data, c.isDigit = false) :=
  ⟨by decide, by decide,
    c5_filename_two_tier.2.2.2 "nocode.png" (by decide) (by decide)⟩

/-- C10: when the vendor-token tier does not match, the fallback tier returns
the first digit run of the stem verbatim, preserving leading zeros — a name
containing 007 yields "007", while the vendor tier strips zeros — and a
zero-padded fallback identifier compares unequal to its unpadded counterpart
in the datamatrix_match comparison. -/
theorem c10_fallback_preserves_zeros (s : String)
    (h : dunnlabScan (pyStem (pyName s.data)) = none) :
    extract_integer_from_filename s =
      (firstDigitRun (pyStem (pyName s.data))).map String.mk ∧
    extract_integer_from_filename "vial_007_before.png" = some "007" ∧
    extract_integer_from_filename "DunnLab000187.jpg" = some "187" ∧
    datamatrixMatchOf (some "7") (some "007") = some false := by
  refine ⟨?_, by decide, by decide, by decide⟩
  unfold extract_integer_from_filename
  rw [h]

/-- Concrete zero-padded name exercising c10_fallback_preserves_zeros. -/
theorem c10_witness :
    extract_integer_from_filename "vial_007_before.png" =
      (firstDigitRun (pyStem (pyName "vial_007_before.png".data))).map
        String.mk ∧
    extract_integer_from_filename "vial_007_before.png" = some "007" ∧
    extract_integer_from_filename "DunnLab000187.jpg" = some "187" ∧
    datamatrixMatchOf (some "7") (some "007") = some false :=
  c10_fallback_preserves_zeros "vial_007_before.png" (by decide)



lemma dropPre_self (p l : List Char) : dropPre p (p ++ l) = some l := by
  induction p with
  | nil => rfl
  | cons a ps ih => simp [dropPre, ih]

lemma dropPre_eq_some_iff (p : List Char) :
    ∀ l r, dropPre p l = some r ↔ l = p ++ r := by
  induction p with
  | nil =>
    intro l r
    simp [dropPre]
  | cons a ps ih =>
    intro l r
    cases l with
    | nil => simp [dropPre]
    | cons c cs =>
      by_cases h : a = c
      · subst h
        simp [dropPre, ih]
      · simp [dropPre, h, Ne.symm h]

lemma dropWhile_eq_self_of_head (p : Char → Bool) (l : List Char)
    (h : ∀ c, l.head? = some c → p c = false) : l.dropWhile p = l := by
  cases l with
  | nil => rfl
  | cons c t => simp [List.dropWhile_cons, h c rfl]

lemma pyStrip_eq_self (l : List Char)
    (h1 : ∀ c, l.head? = some c → isWS c = false)
    (h2 : ∀ c, l.reverse.head? = some c → isWS c = false) :
    pyStrip l = l := by
  unfold pyStrip
  rw [dropWhile_eq_self_of_head _ _ h1, dropWhile_eq_self_of_head _ _ h2,
    List.reverse_reverse]

lemma pyStrip_of_nonWS (a b : Char) (m : List Char)
    (ha : isWS a = false) (hb : isWS b = false) :
    pyStrip (a :: (m ++ [b])) = a :: (m ++ [b]) := by
  refine pyStrip_eq_self _ ?_ ?_
  · intro c hc
    have : some a = some c := hc
    cases Option.some.inj this
    exact ha
  · intro c hc
    rw [show (a :: (m ++ [b])).reverse = b :: (m.reverse ++ [a]) by simp] at hc
    have : some b = some c := hc
    cases Option.some.inj this
    exact hb

lemma pyStrip_json_fenced (inner : List Char) :
    pyStrip ("```json\n".data ++ (inner ++ "\n```".data)) =
      "```json\n".data ++ (inner ++ "\n```".data) := by
  rw [show "```json\n".data = Char.ofNat 96 :: "``json\n".data from by decide,
    show "\n```".data = "\n``".data ++ [Char.ofNat 96] from by decide]
  have hshape :
      (Char.ofNat 96 :: "``json\n".data) ++
        (inner ++ ("\n``".data ++ [Char.ofNat 96])) =
      Char.ofNat 96 ::
        (("``json\n".data ++ (inner ++ "\n``".data)) ++ [Char.ofNat 96]) := by
    simp [List.append_assoc]
  rw [hshape]
  exact pyStrip_of_nonWS _ _ _ (by decide) (by decide)

lemma pyStrip_untagged_fenced (inner : List Char) :
    pyStrip ("```\n".data ++ (inner ++ "\n```".data)) =
      "```\n".data ++ (inner ++ "\n```".data) := by
  rw [show "```\n".data = Char.ofNat 96 :: "``\n".data from by decide,
    show "\n```".data = "\n``".data ++ [Char.ofNat 96] from by decide]
  have hshape :
      (Char.ofNat 96 :: "``\n".data) ++
        (inner ++ ("\n``".data ++ [Char.ofNat 96])) =
      Char.ofNat 96 ::
        (("``\n".data ++ (inner ++ "\n``".data)) ++ [Char.ofNat 96]) := by
    simp [List.append_assoc]
  rw [hshape]
  exact pyStrip_of_nonWS _ _ _ (by decide) (by decide)

lemma stripLeadFence_json (X : List Char) :
    stripLeadFence ("```json\n".data ++ X) = X := by
  have h1 : "```json\n".data ++ X = fence3 ++ ("json".data ++ ('\n' :: X)) := by
    rw [show "```json\n".data = fence3 ++ ("json".data ++ ['\n']) from by decide]
    simp [List.append_assoc]
  rw [h1]
  simp only [stripLeadFence, dropPre_self]
  simp

lemma stripLeadFence_untagged (X : List Char) :
    stripLeadFence ("```\n".data ++ X) = X := by
  have h1 : "```\n".data ++ X = fence3 ++ ('\n' :: X) := by
    rw [show "```\n".data = fence3 ++ ['\n'] from by decide]
    simp
  rw [h1]
  simp only [stripLeadFence, dropPre_self]
  rw [show dropPre "json".data ('\n' :: X) = none from rfl]
  simp

lemma stripLeadFence_nofence (l : List Char) (h : ¬ fence3 <+: l) :
    stripLeadFence l = l := by
  have hd : dropPre fence3 l = none := by
    cases hdp : dropPre fence3 l with
    | none => rfl
    | some r => exact absurd ⟨r, ((dropPre_eq_some_iff _ _ _).1 hdp).symm⟩ h
  simp only [stripLeadFence, hd]

lemma stripTrailFence_newline_fence (inner : List Char) :
    stripTrailFence (inner ++ "\n```".data) = inner := by
  have h1 : (inner ++ "\n```".data).reverse =
      fence3 ++ ('\n' :: inner.reverse) := by
    rw [show "\n```".data = '\n' :: fence3 from by decide, List.reverse_append,
      List.reverse_cons, show fence3.reverse = fence3 from by decide]
    simp
  simp only [stripTrailFence, h1, dropPre_self]
  simp

lemma stripTrailFence_nofence (l : List Char) (hsuf : ¬ fence3 <:+ l)
    (hlast : ∀ c, l.reverse.head? = some c → c ≠ '\n') :
    stripTrailFence l = l := by
  have hd : dropPre fence3 l.reverse = none := by
    cases hdp : dropPre fence3 l.reverse with
    | none => rfl
    | some r =>
      have h2 := (dropPre_eq_some_iff _ _ _).1 hdp
      have h3 : l = r.reverse ++ fence3 := by
        have h4 := congrArg List.reverse h2
        rw [List.reverse_reverse, List.reverse_append,
          show fence3.reverse = fence3 from by decide] at h4
        exact h4
      exact absurd ⟨r.reverse, h3.symm⟩ hsuf
  simp only [stripTrailFence, hd]
  cases hr : l.reverse with
  | nil => rfl
  | cons c rest =>
    have hc : c ≠ '\n' := hlast c (by rw [hr]; rfl)
    simp [hc]

/-- C7 (amended): fence stripping is a semantic no-op for fences that are
untagged or tagged exactly json — decoding such a fenced reply equals
decoding the unwrapped inner text under any parse function — and decoding an
unfenced reply leaves the text unaltered before parsing (the inner text is
assumed trimmed and not itself fence-delimited). -/
theorem c7_amended_fence_strip {α : Type}
    (parse : List Char → Except String α) (inner : List Char)
    (hhead : ∀ c, inner.head? = some c → isWS c = false)
    (hlast : ∀ c, inner.reverse.head? = some c → isWS c = false)
    (hpre : ¬ fence3 <+: inner) (hsuf : ¬ fence3 <:+ inner) :
    decodeReply parse ("```json\n".data ++ (inner ++ "\n```".data)) =
      parse inner ∧
    decodeReply parse ("```\n".data ++ (inner ++ "\n```".data)) =
      parse inner ∧
    decodeReply parse inner = parse inner := by
  have hlastn : ∀ c, inner.reverse.head? = some c → c ≠ '\n' := by
    intro c hc he
    have hw := hlast c hc
    rw [he] at hw
    exact absurd hw (by decide)
  refine ⟨?_, ?_, ?_⟩
  · rw [decodeReply, decodeText, pyStrip_json_fenced inner,
      stripLeadFence_json, stripTrailFence_newline_fence]
  · rw [decodeReply, decodeText, pyStrip_untagged_fenced inner,
      stripLeadFence_untagged, stripTrailFence_newline_fence]
  · rw [decodeReply, decodeText, pyStrip_eq_self _ hhead hlast,
      stripLeadFence_nofence _ hpre, stripTrailFence_nofence _ hsuf hlastn]

/-- Concrete fenced record exercising c7_amended_fence_strip. -/
theorem c7_witness :
    decodeReply (fun l => (Except.ok l : Except String (List Char)))
      ("```json\n".data ++ ("\x7b\"a\": 1\x7d".data ++ "\n```".data)) =
      Except.ok "\x7b\"a\": 1\x7d".data ∧
    decodeReply (fun l => (Except.ok l : Except String (List Char)))
      ("```\n".data ++ ("\x7b\"a\": 1\x7d".data ++ "\n```".data)) =
      Except.ok "\x7b\"a\": 1\x7d".data ∧
    decodeReply (fun l => (Except.ok l : Except String (List Char)))
      "\x7b\"a\": 1\x7d".data = Except.ok "\x7b\"a\": 1\x7d".data :=
  c7_amended_fence_strip (fun l => (Except.ok l : Except String (List Char)))
    "\x7b\"a\": 1\x7d".data (by decide) (by decide) (by decide) (by decide)

/-- C7 counterexample: a reply wrapped in a fence tagged with the format name
yaml is not decoded like its unwrapped inner text — the decoder removes only
the bare marker and leaves the tag word in place, so the text handed to the
structured parser, and hence the decoded result, differs. -/
theorem c7_format_tag_counterexample :
    decodeText "```yaml\n\x7b\"a\": 1\x7d\n```".data =
      "yaml\n\x7b\"a\": 1\x7d".data ∧
    decodeText "\x7b\"a\": 1\x7d".data = "\x7b\"a\": 1\x7d".data ∧
    decodeReply (fun l => (Except.ok l : Except String (List Char)))
        "```yaml\n\x7b\"a\": 1\x7d\n```".data ≠
      decodeReply (fun l => (Except.ok l : Except String (List Char)))
        "\x7b\"a\": 1\x7d".data := by
  refine ⟨by decide, by decide, ?_⟩
  intro h
  rw [decodeReply, decodeReply] at h
  have h2 := Except.ok.inj h
  exact absurd h2 (by decide)



lemma countP_replicate_waiting (n : Nat) :
    (List.replicate n Phase.waiting).countP isInFlight = 0 := by
  induction n with
  | zero => rfl
  | succ m ih => simp [List.replicate_succ, List.countP_cons, ih, isInFlight]

lemma countP_set_eq (p : Phase → Bool) (l : List Phase) (i : Nat)
    (a b : Phase) (h : l[i]? = some a) :
    (l.set i b).countP p + (if p a then 1 else 0) =
      l.countP p + (if p b then 1 else 0) := by
  induction l generalizing i with
  | nil => simp at h
  | cons c t ih =>
    cases i with
    | zero =>
      have hc : c = a := by simpa using h
      subst hc
      simp [List.countP_cons]
      omega
    | succ j =>
      have hj : t[j]? = some a := by simpa using h
      have := ih j hj
      simp [List.countP_cons, List.set]
      omega

lemma sched_invariant (k n : Nat) (s : SchedState) (h : Reachable k n s) :
    s.avail + inFlightCount s = k := by
  induction h with
  | refl => simp [initState, inFlightCount, countP_replicate_waiting]
  | tail hr hstep ih =>
    cases hstep with
    | acquire a ts i hi =>
      have hc := countP_set_eq isInFlight ts i _ Phase.inCall1 hi
      simp [isInFlight] at hc
      simp only [inFlightCount] at ih ⊢
      omega
    | advance a ts i hi =>
      have hc := countP_set_eq isInFlight ts i _ Phase.inCall2 hi
      simp [isInFlight] at hc
      simp only [inFlightCount] at ih ⊢
      omega
    | skipSecond a ts i hi =>
      have hc := countP_set_eq isInFlight ts i _ Phase.done hi
      simp [isInFlight] at hc
      simp only [inFlightCount] at ih ⊢
      omega
    | finish a ts i hi =>
      have hc := countP_set_eq isInFlight ts i _ Phase.done hi
      simp [isInFlight] at hc
      simp only [inFlightCount] at ih ⊢
      omega

/-- C8: in every scheduler state reachable under concurrency limit k with
n > k items, at most k pipeline tasks hold an in-flight inference call
simultaneously. -/
theorem c8_concurrency_bound (k n : Nat) (s : SchedState)
    (_hkn : k < n) (h : Reachable k n s) : inFlightCount s ≤ k := by
  have hinv := sched_invariant k n s h
  omega

/-- Concrete reachable state exercising c8_concurrency_bound. -/
theorem c8_witness :
    1 < 2 ∧ inFlightCount ⟨0, [Phase.inCall1, Phase.waiting]⟩ ≤ 1 :=
  ⟨by decide,
    c8_concurrency_bound 1 2 ⟨0, [Phase.inCall1, Phase.waiting]⟩ (by decide)
      (Relation.ReflTransGen.single
        (SchedStep.acquire 0 (List.replicate 2 Phase.waiting) 0 rfl))⟩

end VialScan
